import Mathlib

/-!
MathFlow-Frontend: verification of the step-decomposition page state.

Shallow embedding of the state handlers of `src/src/app/page.tsx`
(the `HomePage` component).  The second source file
(`src/unnamed/part_000`) is an earlier revision of the same component;
where the claims touch it, it agrees with `page.tsx` on every modelled
behaviour (its extra `nodeStates` record is only written once, cleared
in `handleSubmit`, and its `renderNodeTree` is dead code that returns a
constant).

The React `useState` fields of `HomePage` become the fields of
`AppState`; each event handler becomes a function from the old state
(plus the outcome of its single awaited network call, modelled as an
`Except` value) to the new state.  JS strings are Lean `String`s,
JS numbers used as indices/timestamps are `Nat`, and `Date.now()` is an
explicit `now` parameter.
-/

/-- A step or substep as delivered by the backend: `{math, explanation}`. -/
structure StepItem where
  math : String
  explanation : String
deriving DecidableEq, Repr

/-- Planar coordinate of a graph node (`position: { x, y }`). -/
structure Position where
  x : Int
  y : Int
deriving DecidableEq, Repr

/-- A ReactFlow node as built in `handleSubmit`: its `id`, the data shown
in its label (the step's `math` and `explanation`), and its `position`.
The constant styling object is presentational and not modelled. -/
structure FlowNode where
  id : String
  math : String
  explanation : String
  position : Position
deriving DecidableEq, Repr

/-- A ReactFlow edge as built in `handleSubmit`: `id`, `source`, `target`.
The constant `animated`/`style` fields are presentational and not modelled. -/
structure FlowEdge where
  id : String
  source : String
  target : String
deriving DecidableEq, Repr

/-- A saved-history entry (`savedQuestions` element):
`{id, question, timestamp, solution}`. -/
structure Question where
  id : String
  question : String
  timestamp : Nat
  solution : List StepItem
deriving DecidableEq, Repr

/-- The `useState` fields of `HomePage` that the handlers read or write.
`isSidebarOpen` is pure presentation driven by mouse position and is
not modelled. -/
structure AppState where
  nodes : List FlowNode
  edges : List FlowEdge
  solutionInput : String
  steps : List StepItem
  selectedStep : Option Nat
  substeps : List StepItem
  savedQuestions : List Question
  selectedQuestionId : Option String
deriving DecidableEq, Repr

/-! Section: JS string primitives used by the handlers. -/

/-- Whitespace for JS `String.prototype.trim` (the whitespace characters
that can actually occur in the modelled text; JS also trims a few exotic
Unicode spaces). -/
def jsWhitespace (c : Char) : Bool :=
  c == ' ' || c == '\t' || c == '\n' || c == '\r' || c == '\x0b' ||
  c == '\x0c' || c == ' '

/-- JS `s.trim()`: drop leading and trailing whitespace. -/
def jsTrim (s : String) : String :=
  String.mk (((s.data.dropWhile jsWhitespace).reverse.dropWhile jsWhitespace).reverse)

/-- Decimal digit character, `digitChar d` for `d < 10`. -/
def digitChar (d : Nat) : Char := Char.ofNat (48 + d)

/-- Decimal digits of a number, most significant first, prepended to
`acc`; fuel-driven so it reduces in the kernel (`fuel ≥ n` suffices
since `n / 10 < n` for `n ≥ 10`). -/
def natDigitsAux : Nat → Nat → List Char → List Char
  | 0, n, acc => digitChar (n % 10) :: acc
  | fuel + 1, n, acc =>
      if n < 10 then digitChar n :: acc
      else natDigitsAux fuel (n / 10) (digitChar (n % 10) :: acc)

/-- JS number-to-string for a nonnegative integer, as in the template
literals `` `${idx}` `` of `handleSubmit`. -/
def natStr (n : Nat) : String := String.mk (natDigitsAux n n [])

/-- The embedding of `node.id.includes("-")` (from the earlier revision's
`renderNodeTree`): a node is top-level (depth 0) iff its id has no `-`. -/
def idIncludesDash (s : String) : Bool := s.data.any (fun c => c == '-')

/-! Section: the handleSubmit handler. -/

/-- One graph node of the root decomposition, from
`stepsData.map((step, idx) => ({ id: `${idx}`, ..., position: { x: 200, y: idx * 100 } }))`. -/
def mkNode (idx : Nat) (step : StepItem) : FlowNode :=
  { id := natStr idx
    math := step.math
    explanation := step.explanation
    position := { x := 200, y := 100 * idx } }

/-- Index-aware map underlying `stepsData.map((step, idx) => ...)`. -/
def mkNodesFrom (idx : Nat) : List StepItem → List FlowNode
  | [] => []
  | s :: rest => mkNode idx s :: mkNodesFrom (idx + 1) rest

/-- All root-decomposition graph nodes. -/
def mkNodes (steps : List StepItem) : List FlowNode := mkNodesFrom 0 steps

/-- One sequence edge, from
`({ id: `e-${idx}`, source: `${idx}`, target: `${idx + 1}` })`. -/
def mkEdge (idx : Nat) : FlowEdge :=
  { id := "e-" ++ natStr idx
    source := natStr idx
    target := natStr (idx + 1) }

/-- Sequence edges: `stepsData.slice(0, -1).map((_, idx) => ...)`;
`slice(0, -1)` is `dropLast`. -/
def mkEdgesFrom (idx : Nat) : List StepItem → List FlowEdge
  | [] => []
  | _ :: rest => mkEdge idx :: mkEdgesFrom (idx + 1) rest

/-- All sequence edges of the root decomposition. -/
def mkEdges (steps : List StepItem) : List FlowEdge :=
  mkEdgesFrom 0 steps.dropLast

/-- The `setSavedQuestions` updater of `handleSubmit`:
`[newQuestion, ...prevQuestions.filter(q => q.question !== solutionInput).slice(0, 19)]`. -/
def recordQuestion (newQ : Question) (input : String) (prev : List Question) :
    List Question :=
  newQ :: ((prev.filter (fun q => q.question ≠ input)).take 19)

/-- Whether `handleSubmit` issues a network request: the guard
`if (!solutionInput.trim()) return;` precedes the `axios.post`. -/
def submitIssuesRequest (st : AppState) : Bool :=
  !(jsTrim st.solutionInput == "")

/-- The submit handler `handleSubmit`, with the awaited `axios.post` outcome an explicit
parameter (`.error` for a network failure or non-2xx rejection) and
`Date.now()` the parameter `now`.  Every `set*` call of the source sits
after the `await`; the `catch` block only logs, so the failure branch
returns the state unchanged. -/
def handleSubmit (st : AppState) (now : Nat)
    (response : Except Unit (List StepItem)) : AppState :=
  if jsTrim st.solutionInput = "" then st
  else
    match response with
    | .error _ => st
    | .ok stepsData =>
        { st with
          steps := stepsData
          selectedStep := none
          substeps := []
          savedQuestions :=
            recordQuestion
              { id := natStr now
                question := st.solutionInput
                timestamp := now
                solution := stepsData }
              st.solutionInput st.savedQuestions
          nodes := mkNodes stepsData
          edges := mkEdges stepsData }

/-! Section: markup cleanup, the `handleStepClick` response post-processing.

`handleStepClick` cleans each substep with two regex replaces and a
trim:

    sub.math.replace(/## \d+\.\s*Math Step:[\s\*]*/i, "")
            .replace(/\*\*(.*?)\*\*/g, "$1").trim()

and symmetrically for `explanation` with the keyword `Deep Explanation:`.
The regexes are embedded below character by character. -/

/-- Longest run of decimal digits at the head of a list (`\d+` is greedy
and nothing after it can match a digit, so no backtracking occurs). -/
def takeDigits : List Char → List Char × List Char
  | [] => ([], [])
  | c :: rest =>
      if c.isDigit then
        let p := takeDigits rest
        (c :: p.1, p.2)
      else ([], c :: rest)

/-- Longest whitespace run at the head (`\s*`, greedy; the following
literal keyword starts with a letter, so no backtracking occurs). -/
def dropSpaces (l : List Char) : List Char := l.dropWhile jsWhitespace

/-- Longest run of whitespace or `*` at the head (`[\s\*]*`, greedy and
final in the pattern). -/
def dropSpacesStars (l : List Char) : List Char :=
  l.dropWhile (fun c => jsWhitespace c || c == '*')

/-- Case-insensitive literal keyword match (`i` flag); returns the
remainder after the keyword. -/
def matchKeywordCI : List Char → List Char → Option (List Char)
  | [], l => some l
  | _ :: _, [] => none
  | k :: ks, c :: cs =>
      if c.toLower == k.toLower then matchKeywordCI ks cs else none

/-- Try to match `## \d+\.\s*<kw>[\s\*]*` at the head of the list;
on success return the remainder after the whole match. -/
def matchHeaderAt (kw : List Char) : List Char → Option (List Char)
  | '#' :: '#' :: ' ' :: rest =>
      let p := takeDigits rest
      match p.1 with
      | [] => none
      | _ :: _ =>
          match p.2 with
          | '.' :: rest2 =>
              match matchKeywordCI kw (dropSpaces rest2) with
              | some rest3 => some (dropSpacesStars rest3)
              | none => none
          | _ => none
  | _ => none

/-- Embedding of `s.replace(/## \d+\.\s*<kw>[\s\*]*/i, "")`: delete the first match
anywhere in the string (no `g` flag), leave the rest untouched. -/
def stripHeaderFrom (kw : List Char) : List Char → List Char
  | [] => []
  | c :: rest =>
      match matchHeaderAt kw (c :: rest) with
      | some rem => rem
      | none => c :: stripHeaderFrom kw rest

/-- Find the earliest closing `**` (with no line break before it, since
`.` does not match one): split `l` as `inner ++ '*' :: '*' :: rest`. -/
def findClose : List Char → Option (List Char × List Char)
  | '*' :: '*' :: rest => some ([], rest)
  | '\n' :: _ => none
  | '\r' :: _ => none
  | [] => none
  | c :: rest =>
      match findClose rest with
      | some p => some (c :: p.1, p.2)
      | none => none

/-- Embedding of `s.replace(/\*\*(.*?)\*\*/g, "$1")`: left-to-right global scan; each
`**inner**` (lazy inner, no line break) is replaced by `inner`, and the
scan resumes after the replacement; an unclosed `**` advances one
character, as the regex engine retries from the next position.
Fuel-driven: each recursive call strictly shortens the list, so
`fuel = length` never runs out. -/
def stripBoldFuel : Nat → List Char → List Char
  | 0, l => l
  | _ + 1, [] => []
  | fuel + 1, '*' :: '*' :: rest =>
      match findClose rest with
      | some p => p.1 ++ stripBoldFuel fuel p.2
      | none => '*' :: stripBoldFuel fuel ('*' :: rest)
  | fuel + 1, c :: rest => c :: stripBoldFuel fuel rest

/-- Strip all `**`-delimited emphasis markers. -/
def stripBold (l : List Char) : List Char := stripBoldFuel l.length l

/-- The keyword `"Math Step:"` as a character list. -/
def mathKw : List Char := "Math Step:".data

/-- The keyword `"Deep Explanation:"` as a character list. -/
def deepKw : List Char := "Deep Explanation:".data

/-- The `cleanMath` computation of `handleStepClick`: header strip, then bold strip,
then trim. -/
def cleanMath (s : String) : String :=
  jsTrim (String.mk (stripBold (stripHeaderFrom mathKw s.data)))

/-- The `cleanExplanation` computation of `handleStepClick`: header strip (keyword
`Deep Explanation:`), then bold strip, then trim. -/
def cleanExplanation (s : String) : String :=
  jsTrim (String.mk (stripBold (stripHeaderFrom deepKw s.data)))

/-- The per-substep cleanup of `handleStepClick`: both fields cleaned. -/
def cleanSub (sub : StepItem) : StepItem :=
  { math := cleanMath sub.math, explanation := cleanExplanation sub.explanation }

/-! Section: the handleStepClick handler.

The handler runs `setSelectedStep(index)` synchronously, then awaits
`axios.post`.  The state visible while the request is pending is
`handleStepClickPending`; `handleStepClickResolve` is the state once the
request resolves (`.ok`) or rejects (`.error`, whose `catch` block runs
`setSubsteps([])`). -/

/-- State after `setSelectedStep(index)`, before the awaited call
resolves. -/
def handleStepClickPending (st : AppState) (index : Nat) : AppState :=
  { st with selectedStep := some index }

/-- State after the awaited `axios.post` of `handleStepClick` settles. -/
def handleStepClickResolve (st : AppState) (index : Nat)
    (response : Except Unit (List StepItem)) : AppState :=
  let st1 := handleStepClickPending st index
  match response with
  | .error _ => { st1 with substeps := [] }
  | .ok subs => { st1 with substeps := subs.map cleanSub }

/-! Section: localStorage effects.

The load effect reads `localStorage.getItem('mathflow-saved-questions')`;
a missing (or falsy) value skips the `if (savedQuestionsFromStorage)`
body, a `JSON.parse` throw is caught and only logged, and a successful
parse is stored via `setSavedQuestions`.  `JSON.parse`/`JSON.stringify`
are modelled as an opaque outcome / the identity on the entry list, so
the persisted blob is modelled as the list it encodes. -/

/-- Resulting `savedQuestions` after the mount-time load effect, starting
from the initial `[]`.  `none` = missing key; `some (.error _)` =
malformed JSON (parse throws, caught); `some (.ok qs)` = well-formed. -/
def loadEffect (stored : Option (Except Unit (List Question))) : List Question :=
  match stored with
  | none => []
  | some (.error _) => []
  | some (.ok qs) => qs

/-- The persist effect `if (savedQuestions.length > 0) localStorage.setItem(...)`:
the storage cell is written only for a non-empty list. -/
def persistEffect (qs : List Question) (storage : Option (List Question)) :
    Option (List Question) :=
  if qs.length > 0 then some qs else storage

example : natStr 0 = "0" := by decide
example : natStr 12 = "12" := by decide
example : jsTrim "  x \n" = "x" := by decide
example : cleanMath "## 1. Math Step: **x = 1**" = "x = 1**" := by decide
example : cleanMath "## 3. math step: x+1" = "x+1" := by decide
example : cleanMath "**a**b**c**" = "abc" := by decide
example : cleanMath "***a***" = "*a*" := by decide
example : cleanExplanation "## 2.  deep explanation:  because" = "because" := by decide
example : cleanMath "a**b" = "a**b" := by decide

/-! Section: concrete states used by witnesses and counterexamples. -/

/-- The step list of Scenario A of the spec. -/
def scenarioASteps : List StepItem :=
  [⟨"x+1=2", "isolate x"⟩, ⟨"x=1", "solved"⟩]

/-- The substep list of Scenario B of the spec. -/
def scenarioBSub : List StepItem := [⟨"x=2-1", "subtract 1"⟩]

/-- A fresh page state with a non-blank input. -/
def stA : AppState :=
  { nodes := [], edges := [], solutionInput := "x+1=2 x=1", steps := [],
    selectedStep := none, substeps := [], savedQuestions := [],
    selectedQuestionId := none }

/-- A fresh page state whose input is whitespace only. -/
def stWs : AppState :=
  { nodes := [], edges := [], solutionInput := "  \n ", steps := [],
    selectedStep := none, substeps := [], savedQuestions := [],
    selectedQuestionId := none }

/-- A history of 20 distinct saved questions (most recent first). -/
def h20 : List Question :=
  (List.range 20).map (fun i => ⟨natStr i, "q" ++ natStr i, i, []⟩)

/-- One saved question used by the persistence witness. -/
def qDemo : Question := ⟨"1", "old question", 1, []⟩

/-- A substep carrying service emphasis markers on both fields. -/
def rawBold : StepItem := ⟨"**x**", "**why**"⟩

/-! Section: helper lemmas. -/

theorem mkNodesFrom_length (i : Nat) (l : List StepItem) :
    (mkNodesFrom i l).length = l.length := by
  induction l generalizing i with
  | nil => rfl
  | cons s rest ih => simp [mkNodesFrom, ih]

theorem mkNodesFrom_getElem? (i k : Nat) (l : List StepItem) :
    (mkNodesFrom i l)[k]? = l[k]?.map (fun s => mkNode (i + k) s) := by
  induction l generalizing i k with
  | nil => simp [mkNodesFrom]
  | cons s rest ih =>
      cases k with
      | zero => simp [mkNodesFrom]
      | succ k =>
          have h : i + (k + 1) = (i + 1) + k := by omega
          simp [mkNodesFrom, ih, h]

theorem mkEdgesFrom_length (i : Nat) (l : List StepItem) :
    (mkEdgesFrom i l).length = l.length := by
  induction l generalizing i with
  | nil => rfl
  | cons s rest ih => simp [mkEdgesFrom, ih]

theorem mkEdgesFrom_getElem? (i k : Nat) (l : List StepItem) (h : k < l.length) :
    (mkEdgesFrom i l)[k]? = some (mkEdge (i + k)) := by
  induction l generalizing i k with
  | nil => simp at h
  | cons s rest ih =>
      cases k with
      | zero => simp [mkEdgesFrom]
      | succ k =>
          have h2 : i + (k + 1) = (i + 1) + k := by omega
          have hk : k < rest.length := by simpa using h
          simp [mkEdgesFrom, ih _ _ hk, h2]

theorem digitChar_ne_dash (d : Nat) (h : d < 10) : digitChar d ≠ '-' := by
  interval_cases d <;> decide

theorem natDigitsAux_ne_dash (fuel : Nat) :
    ∀ (n : Nat) (acc : List Char), (∀ c ∈ acc, c ≠ '-') →
      ∀ c ∈ natDigitsAux fuel n acc, c ≠ '-' := by
  induction fuel with
  | zero =>
      intro n acc hacc c hc
      simp only [natDigitsAux] at hc
      rcases List.mem_cons.mp hc with hc1 | hc1
      · exact hc1 ▸ digitChar_ne_dash _ (Nat.mod_lt _ (by norm_num))
      · exact hacc c hc1
  | succ fuel ih =>
      intro n acc hacc c hc
      simp only [natDigitsAux] at hc
      by_cases hn : n < 10
      · rw [if_pos hn] at hc
        rcases List.mem_cons.mp hc with hc1 | hc1
        · exact hc1 ▸ digitChar_ne_dash _ hn
        · exact hacc c hc1
      · rw [if_neg hn] at hc
        refine ih _ _ ?_ c hc
        intro c' hc'
        rcases List.mem_cons.mp hc' with hc1 | hc1
        · exact hc1 ▸ digitChar_ne_dash _ (Nat.mod_lt _ (by norm_num))
        · exact hacc c' hc1

theorem natStr_no_dash (n : Nat) : idIncludesDash (natStr n) = false := by
  have h := natDigitsAux_ne_dash n n [] (by simp)
  unfold idIncludesDash natStr
  rw [Bool.eq_false_iff]
  intro hany
  rcases List.any_eq_true.mp hany with ⟨c, hc, hbeq⟩
  exact h c hc (by simpa using hbeq)

/-! Section: the claims. -/

/-- C1: for every non-empty step list S returned by the root
decomposition, `handleSubmit` (the submit/setRoot operation) produces
exactly `S.length` graph nodes, all at depth 0 (id without `-`), with
ids `"0"` through `"len-1"` in input order and positions assigned
deterministically by index, and exactly `S.length - 1` sequence edges,
edge `k` going from id `k` to id `k + 1`. -/
theorem C1_submit_nodes_edges (st : AppState) (now : Nat) (S : List StepItem)
    (hin : jsTrim st.solutionInput ≠ "") (_hS : S ≠ []) :
    ((handleSubmit st now (.ok S)).nodes.length = S.length
      ∧ ∀ k, k < S.length →
          ∃ node, (handleSubmit st now (.ok S)).nodes[k]? = some node
            ∧ node.id = natStr k
            ∧ idIncludesDash node.id = false
            ∧ node.position = ⟨200, 100 * k⟩)
    ∧ ((handleSubmit st now (.ok S)).edges.length = S.length - 1
      ∧ ∀ k, k < S.length - 1 →
          (handleSubmit st now (.ok S)).edges[k]? =
            some ⟨"e-" ++ natStr k, natStr k, natStr (k + 1)⟩) := by
  have hnodes : (handleSubmit st now (.ok S)).nodes = mkNodes S := by
    simp [handleSubmit, hin]
  have hedges : (handleSubmit st now (.ok S)).edges = mkEdges S := by
    simp [handleSubmit, hin]
  refine ⟨⟨?_, ?_⟩, ?_, ?_⟩
  · rw [hnodes]; exact mkNodesFrom_length 0 S
  · intro k hk
    rw [hnodes]
    have h1 := mkNodesFrom_getElem? 0 k S
    rw [List.getElem?_eq_getElem hk] at h1
    refine ⟨mkNode k S[k], ?_, rfl, natStr_no_dash k, rfl⟩
    simpa using h1
  · rw [hedges]
    unfold mkEdges
    rw [mkEdgesFrom_length]
    exact List.length_dropLast S
  · intro k hk
    rw [hedges]
    unfold mkEdges
    have hk2 : k < S.dropLast.length := by
      rw [List.length_dropLast]; exact hk
    have h2 := mkEdgesFrom_getElem? 0 k S.dropLast hk2
    simpa [mkEdge] using h2

/-- C1 witness: Scenario A, `setRoot` on the two-step list yields nodes
`"0"`, `"1"` and the single edge `e-0 : 0 → 1`. -/
theorem C1_submit_nodes_edges_witness :
    (handleSubmit stA 0 (.ok scenarioASteps)).nodes.length = 2
    ∧ (∃ node, (handleSubmit stA 0 (.ok scenarioASteps)).nodes[1]? = some node
        ∧ node.id = natStr 1
        ∧ idIncludesDash node.id = false
        ∧ node.position = ⟨200, 100 * 1⟩)
    ∧ (handleSubmit stA 0 (.ok scenarioASteps)).edges.length = 1
    ∧ (handleSubmit stA 0 (.ok scenarioASteps)).edges[0]? =
        some ⟨"e-" ++ natStr 0, natStr 0, natStr 1⟩ := by
  have h := C1_submit_nodes_edges stA 0 scenarioASteps (by decide) (by decide)
  refine ⟨by rw [h.1.1]; rfl, h.1.2 1 (by decide), by rw [h.2.1]; rfl,
    h.2.2 0 (by decide)⟩

/-- C2 counterexample: in the state reached by Scenario A's submit,
clicking node `"0"` with the one-element substep response of Scenario B
creates no child node `"0-0"` and no new edge: the node and edge sets
are exactly those from before the click, so the claimed child node,
decomposition edge and expansion marking do not appear. -/
theorem C2_counterexample :
    ((handleStepClickResolve (handleSubmit stA 0 (.ok scenarioASteps)) 0
        (.ok scenarioBSub)).nodes.all (fun n => n.id != "0-0") = true)
    ∧ (handleStepClickResolve (handleSubmit stA 0 (.ok scenarioASteps)) 0
        (.ok scenarioBSub)).nodes
        = (handleSubmit stA 0 (.ok scenarioASteps)).nodes
    ∧ (handleStepClickResolve (handleSubmit stA 0 (.ok scenarioASteps)) 0
        (.ok scenarioBSub)).edges
        = (handleSubmit stA 0 (.ok scenarioASteps)).edges := by decide

/-- C2 (amended): clicking a step with a substep response creates no
graph nodes or edges at all — the node and edge sets are unchanged — and
no expansion flag exists; the handler only selects the clicked index and
stores the cleaned substeps in the substep panel. -/
theorem C2_click_adds_no_nodes (st : AppState) (index : Nat)
    (subs : List StepItem) :
    (handleStepClickResolve st index (.ok subs)).nodes = st.nodes
    ∧ (handleStepClickResolve st index (.ok subs)).edges = st.edges
    ∧ (handleStepClickResolve st index (.ok subs)).selectedStep = some index
    ∧ (handleStepClickResolve st index (.ok subs)).substeps = subs.map cleanSub := by
  simp [handleStepClickResolve, handleStepClickPending]

/-- C3: recording query `q` with root steps `R` over any history `H`
leaves exactly one entry with query `q`; that entry is first and carries
`R`; the remaining entries are a subsequence of `H` (relative order
preserved); the length never exceeds 20; and when every entry of `H` has
a different query, the result is the new entry followed by the first 19
old ones — so a 21st distinct query evicts the oldest. -/
theorem C3_record_history (qid q : String) (t : Nat) (R : List StepItem)
    (H : List Question) :
    ((recordQuestion ⟨qid, q, t, R⟩ q H).filter
        (fun e => e.question == q)).length = 1
    ∧ (recordQuestion ⟨qid, q, t, R⟩ q H).head? = some ⟨qid, q, t, R⟩
    ∧ (recordQuestion ⟨qid, q, t, R⟩ q H).tail.Sublist H
    ∧ (recordQuestion ⟨qid, q, t, R⟩ q H).length ≤ 20
    ∧ ((∀ e ∈ H, e.question ≠ q) →
        recordQuestion ⟨qid, q, t, R⟩ q H = ⟨qid, q, t, R⟩ :: H.take 19) := by
  refine ⟨?_, rfl, ?_, ?_, ?_⟩
  · show (List.filter (fun e => e.question == q)
        ((⟨qid, q, t, R⟩ : Question)
          :: (H.filter (fun q' => q'.question ≠ q)).take 19)).length = 1
    rw [List.filter_cons]
    have hcond : ((⟨qid, q, t, R⟩ : Question).question == q) = true := by simp
    rw [if_pos hcond, List.length_cons]
    have hnil : ((H.filter (fun q' => q'.question ≠ q)).take 19).filter
        (fun e => e.question == q) = [] := by
      rw [List.filter_eq_nil_iff]
      intro e he
      have he3 := List.of_mem_filter (List.mem_of_mem_take he)
      simp only [decide_eq_true_eq] at he3
      simpa using he3
    rw [hnil]
    rfl
  · show ((H.filter (fun q' => q'.question ≠ q)).take 19).Sublist H
    exact (List.take_sublist 19 _).trans (List.filter_sublist H)
  · have hle := List.length_take_le 19 (H.filter (fun q' => q'.question ≠ q))
    simp only [recordQuestion, List.length_cons]
    omega
  · intro hdist
    have hfil : H.filter (fun q' => q'.question ≠ q) = H := by
      rw [List.filter_eq_self]
      intro a ha
      simpa using hdist a ha
    show (⟨qid, q, t, R⟩ : Question)
        :: (H.filter (fun q' => q'.question ≠ q)).take 19
        = ⟨qid, q, t, R⟩ :: H.take 19
    rw [hfil]

/-- C3 witness: recording a 21st distinct query over the 20-entry
history `h20` keeps the first 19 old entries and evicts the oldest. -/
theorem C3_record_history_witness :
    recordQuestion ⟨"20", "fresh", 20, []⟩ "fresh" h20
      = ⟨"20", "fresh", 20, []⟩ :: h20.take 19
    ∧ (recordQuestion ⟨"20", "fresh", 20, []⟩ "fresh" h20).length ≤ 20 := by
  have h := C3_record_history "20" "fresh" 20 [] h20
  exact ⟨h.2.2.2.2 (by decide), h.2.2.2.1⟩

/-- C4: if the root-decomposition call fails (network error or non-2xx,
the rejected-promise branch), `handleSubmit` leaves the entire state —
steps, nodes, edges, selected step, substeps, input text and history —
exactly as it was: every `set*` call of the source sits after the
`await`, and the `catch` block only logs. -/
theorem C4_submit_error_unchanged (st : AppState) (now : Nat) (e : Unit) :
    handleSubmit st now (.error e) = st := by
  unfold handleSubmit
  split
  · rfl
  · rfl

/-- C5 counterexample: a root-decomposition step whose fields carry the
service emphasis markers `**…**` enters the stored `steps` verbatim —
`handleSubmit` applies no cleanup — although the cleanup function of
`handleStepClick` would strip the markers; so cleanup is not applied
uniformly to root-decomposition steps. -/
theorem C5_counterexample :
    (handleSubmit stA 0 (.ok [rawBold])).steps = [rawBold]
    ∧ cleanMath rawBold.math = "x"
    ∧ rawBold.math ≠ "x"
    ∧ cleanExplanation rawBold.explanation = "why"
    ∧ rawBold.explanation ≠ "why" := by decide

/-- C5 (amended): markup-artifact cleanup (heading strip, `**` strip,
trim) is applied to both the `math` and `explanation` fields of every
step-decomposition substep before it enters the stored state;
root-decomposition steps enter the stored state unmodified. -/
theorem C5_cleanup_substeps_only (st : AppState) (i now : Nat)
    (subs S : List StepItem) (hin : jsTrim st.solutionInput ≠ "") :
    (handleStepClickResolve st i (.ok subs)).substeps = subs.map cleanSub
    ∧ (handleSubmit st now (.ok S)).steps = S := by
  constructor
  · simp [handleStepClickResolve, handleStepClickPending]
  · simp [handleSubmit, hin]

/-- C5 witness: clicking a step with the `**`-marked substep stores the
cleaned fields, while submitting the same item as a root step stores it
raw. -/
theorem C5_cleanup_substeps_only_witness :
    (handleStepClickResolve stA 0 (.ok [rawBold])).substeps = [⟨"x", "why"⟩]
    ∧ (handleSubmit stA 0 (.ok [rawBold])).steps = [rawBold] := by
  have h := C5_cleanup_substeps_only stA 0 0 [rawBold] [rawBold] (by decide)
  exact ⟨by rw [h.1]; decide, h.2⟩

/-- C6 counterexample: `handleStepClick` runs `setSelectedStep(index)`
before awaiting the network call, so in the pending state the selected
step already differs from its pre-request value. -/
theorem C6_counterexample :
    (handleStepClickPending (handleSubmit stA 0 (.ok scenarioASteps)) 0).selectedStep
      ≠ (handleSubmit stA 0 (.ok scenarioASteps)).selectedStep := by decide

/-- C6 (amended): while a step-decomposition request is pending, the
selected step is already set to the clicked index (updated before the
request is issued); every other piece of state — nodes, edges, steps,
substeps, history, input — remains exactly the pre-request state, and
substeps change only when the response resolves. -/
theorem C6_pending_state (st : AppState) (i : Nat) :
    (handleStepClickPending st i).nodes = st.nodes
    ∧ (handleStepClickPending st i).edges = st.edges
    ∧ (handleStepClickPending st i).steps = st.steps
    ∧ (handleStepClickPending st i).substeps = st.substeps
    ∧ (handleStepClickPending st i).savedQuestions = st.savedQuestions
    ∧ (handleStepClickPending st i).solutionInput = st.solutionInput
    ∧ (handleStepClickPending st i).selectedStep = some i := by
  simp [handleStepClickPending]

/-- C7: if the step-decomposition call fails, the `catch` block runs
`setSubsteps([])`: the substep list is empty when the handler completes,
no stale substeps remain, and the node and edge sets are untouched (no
expansion of the parent ever happens). -/
theorem C7_stepclick_error (st : AppState) (i : Nat) (e : Unit) :
    (handleStepClickResolve st i (.error e)).substeps = []
    ∧ (handleStepClickResolve st i (.error e)).nodes = st.nodes
    ∧ (handleStepClickResolve st i (.error e)).edges = st.edges := by
  simp [handleStepClickResolve, handleStepClickPending]

/-- C8: the mount-time load of persisted history never propagates an
error: a missing key or malformed JSON yields the empty history (the
parse failure is caught and only logged), and well-formed data is
restored exactly as stored. -/
theorem C8_load_soft_fail (qs : List Question) :
    loadEffect none = []
    ∧ loadEffect (some (.error ())) = []
    ∧ loadEffect (some (.ok qs)) = qs := by
  simp [loadEffect]

/-- C9: submitting with an input whose trim is empty is a complete
no-op: the guard `if (!solutionInput.trim()) return;` fires before the
network call, so no request is issued and the state is returned
entirely unchanged, whatever the would-be response. -/
theorem C9_blank_input_noop (st : AppState) (now : Nat)
    (response : Except Unit (List StepItem))
    (h : jsTrim st.solutionInput = "") :
    submitIssuesRequest st = false ∧ handleSubmit st now response = st := by
  constructor
  · simp [submitIssuesRequest, h]
  · simp [handleSubmit, h]

/-- C9 witness: a whitespace-only input issues no request and changes
nothing even when the service would answer with Scenario A's steps. -/
theorem C9_blank_input_noop_witness :
    submitIssuesRequest stWs = false
    ∧ handleSubmit stWs 0 (.ok scenarioASteps) = stWs :=
  C9_blank_input_noop stWs 0 (.ok scenarioASteps) (by decide)

/-- C10: the persist effect writes the storage cell only when the
in-memory saved-questions list is non-empty; with an empty list the cell
keeps its previous contents, so startup's initial empty state never
clobbers previously stored history. -/
theorem C10_persist_nonempty_only (qs : List Question)
    (storage : Option (List Question)) (h : qs ≠ []) :
    persistEffect [] storage = storage
    ∧ persistEffect qs storage = some qs := by
  constructor
  · simp [persistEffect]
  · simp [persistEffect, List.length_pos.mpr h]

/-- C10 witness: an empty list leaves a stored entry in place; a
non-empty list is written through. -/
theorem C10_persist_nonempty_only_witness :
    persistEffect [] (some [qDemo]) = some [qDemo]
    ∧ persistEffect [qDemo] (some [qDemo]) = some [qDemo] :=
  C10_persist_nonempty_only [qDemo] (some [qDemo]) (by decide)
